import Mathlib

/-!
Verification of the trend-signal engine found in the Quant repository.

The Python sources under scrutiny are the near-duplicate strategy variants
`ATR1/main.py`, `Williams2/main.py`, `Clone of Williams2/main.py`,
`Williams Alligator with ATR Stop Loss/main.py` and `WilliamsAlligator/main.py`.
Prices are embedded as rationals (the Python floats only ever enter linear
arithmetic and comparisons in the properties below).  Each definition mirrors
one Python class or function; the mirrored file and symbol are named in its
doc comment.
-/

namespace ATR1

/-- The values taken by `BelowToLipsCrossover.state` in `ATR1/main.py`.
The Python code stores them as the strings `"unknown"`, `"BELOW_ALL"`,
`"ABOVE_lips"`, `"MOUTH_SHUT"`, `"ReArmed"`. -/
inductive CrossState where
  | unknown
  | belowAll
  | aboveLips
  | mouthShut
  | reArmed
deriving DecidableEq, Repr

/-- `BelowToLipsCrossover.__init__` sets `self.state = "unknown"`. -/
def crossInit : CrossState := CrossState.unknown

/-- `BelowToLipsCrossover.update_state(price, jaw, teeth, lips)`.
Only index `[0]` of each line tuple is read, so the three line arguments are
passed as the rationals `jaw`, `teeth`, `lips`.  The sequential `if` chain of
the Python method is mirrored including the fall-through that can move
`ABOVE_lips` to `MOUTH_SHUT` and then on to `ReArmed` inside one call.
Returns the updated state together with the emitted crossover boolean. -/
def update_state (s : CrossState) (price jaw teeth lips : ℚ) : CrossState × Bool :=
  let bellowAll := price < lips ∧ price < teeth ∧ price < jaw
  let onTheBack := lips < teeth ∧ teeth < jaw
  let openMouth := lips > teeth ∧ teeth > jaw
  if bellowAll ∧ onTheBack then (CrossState.belowAll, false)
  else if (s = CrossState.belowAll ∨ s = CrossState.reArmed) ∧ price > lips ∧ openMouth then
    (CrossState.aboveLips, true)
  else
    let s1 := if s = CrossState.aboveLips ∧ ¬ openMouth then CrossState.mouthShut else s
    if s1 = CrossState.mouthShut ∧ price > lips ∧ openMouth then (CrossState.aboveLips, true)
    else
      let s2 := if s1 = CrossState.mouthShut ∧ ¬ openMouth ∧ price < lips then
        CrossState.reArmed else s1
      (s2, false)

/-- `BelowToLipsCrossover.rearm`: forces the state to `"ReArmed"`. -/
def rearm (_s : CrossState) : CrossState := CrossState.reArmed

/-- One bar of input to the crossover detector. -/
structure CrossInput where
  price : ℚ
  jaw : ℚ
  teeth : ℚ
  lips : ℚ
deriving DecidableEq, Repr

/-- Feed a list of bars through `update_state`, collecting the emitted
booleans. -/
def runCross (s : CrossState) : List CrossInput → CrossState × List Bool
  | [] => (s, [])
  | b :: bs =>
    let r := update_state s b.price b.jaw b.teeth b.lips
    let rest := runCross r.1 bs
    (rest.1, r.2 :: rest.2)

/-- `SMMAIndicator` of `ATR1/main.py` (the variant that also tracks `prev`).
`length` is kept as an integer: the Python constructor performs no
validation whatsoever, so any value is representable. -/
structure SMMAIndicator where
  length : ℤ
  current : Option ℚ
  prev : Option ℚ
  count : ℕ
deriving DecidableEq, Repr

/-- `SMMAIndicator.__init__(length)`: no validation, `current = prev = None`,
`count = 0`. -/
def SMMAIndicator.start (length : ℤ) : SMMAIndicator :=
  { length := length, current := none, prev := none, count := 0 }

/-- `SMMAIndicator.Update(price)`: first call stores the raw price, later
calls apply the Wilder recursion `(current*(length-1) + price)/length`;
returns `(current, prev)` and the updated indicator. -/
def SMMAIndicator.Update (s : SMMAIndicator) (price : ℚ) : (ℚ × Option ℚ) × SMMAIndicator :=
  match s.current with
  | none =>
    ((price, s.prev), { s with current := some price, count := s.count + 1 })
  | some c =>
    let cur := (c * ((s.length : ℚ) - 1) + price) / (s.length : ℚ)
    ((cur, some c), { s with prev := some c, current := some cur, count := s.count + 1 })

/-- `SMMAIndicator.IsReady`: `count >= length`. -/
def SMMAIndicator.IsReady (s : SMMAIndicator) : Bool :=
  decide (s.length ≤ (s.count : ℤ))

/-- `ShiftedLine` of `ATR1/main.py`: an `SMMAIndicator` plus a
`deque(maxlen=shift+1)` emitting the value from `shift` updates ago. -/
structure ShiftedLine where
  smma : SMMAIndicator
  buf : List ℚ
  shift : ℕ
deriving DecidableEq, Repr

/-- `ShiftedLine.__init__(period, shift)`: fresh smoother, empty buffer. -/
def ShiftedLine.start (period : ℤ) (shift : ℕ) : ShiftedLine :=
  { smma := SMMAIndicator.start period, buf := [], shift := shift }

/-- `ShiftedLine.Update(price)`: update the smoother, append its current
value to the bounded buffer (the deque drops from the left when full), and
return the oldest buffered value once the buffer is full, else `None`. -/
def ShiftedLine.Update (s : ShiftedLine) (price : ℚ) : (Option ℚ × Option ℚ) × ShiftedLine :=
  let r := s.smma.Update price
  let b0 := s.buf ++ [r.1.1]
  let b := if b0.length > s.shift + 1 then b0.drop (b0.length - (s.shift + 1)) else b0
  let shifted := if b.length = s.shift + 1 then b.head? else none
  ((shifted, r.1.2), { s with smma := r.2, buf := b })

/-- `ShiftedLine.IsReady`: the smoother is ready and the buffer is full. -/
def ShiftedLine.IsReady (s : ShiftedLine) : Bool :=
  s.smma.IsReady && decide (s.buf.length = s.shift + 1)

/-- Feed a list of prices through `ShiftedLine.Update`. -/
def ShiftedLine.updates (s : ShiftedLine) : List ℚ → ShiftedLine
  | [] => s
  | p :: ps => ((s.Update p).2).updates ps

end ATR1

/-- Population mean, the value of `np.mean(w)`. -/
def popMean (w : List ℚ) : ℚ := w.sum / w.length

/-- Population variance, the square of `np.std(w)` (numpy's default `ddof=0`). -/
def popVar (w : List ℚ) : ℚ := ((w.map (fun x => (x - popMean w) ^ 2)).sum) / w.length

/-- `ts[lag:] - ts[:-lag]`: the lagged difference series used by
`hurst_exponent`; `zipWith` stops at the shorter list, matching numpy
broadcasting of the two equal-length slices. -/
def diffLag (ts : List ℚ) (lag : ℕ) : List ℚ :=
  List.zipWith (fun a b => a - b) (ts.drop lag) ts

/-- The last `n` elements of a list: the Python slice `xs[-n:]` (the two agree
for every `n ≥ 1`, which covers all windows taken by the sources). -/
def lastN (n : ℕ) (xs : List ℚ) : List ℚ := xs.drop (xs.length - n)

/-- The exponential moving average sequence of `is_trending_ema`'s inner
`ema(arr, period)`: `out = [arr[0]]`, then
`out.append(alpha*price + (1-alpha)*out[-1])`.  Tail-recursive accumulator
for the loop body. -/
def emaAcc (alpha acc : ℚ) : List ℚ → List ℚ
  | [] => []
  | p :: ps =>
    let nxt := alpha * p + (1 - alpha) * acc
    nxt :: emaAcc alpha nxt ps

/-- `ema(arr, period)` with `alpha = 2/(period+1)`.  The Python raises on an
empty array; every reachable call receives a nonempty window, and the
embedding returns `[]` there. -/
def ema (arr : List ℚ) (period : ℕ) : List ℚ :=
  match arr with
  | [] => []
  | a :: rest => a :: emaAcc (2 / ((period : ℚ) + 1)) a rest

/-- `ema_with_slope(ts, short, long)` from `is_trending_ema`: EMAs of the last
`long` values, the boolean `s[-1] > l[-1]` and the relative slope
`(s[-1]-s[0])/s[0]`. -/
def ema_with_slope (ts : List ℚ) (short long : ℕ) : Bool × ℚ :=
  let s := ema (lastN long ts) short
  let l := ema (lastN long ts) long
  let slope := (s.getLast?.getD 0 - s.head?.getD 0) / s.head?.getD 0
  (decide (l.getLast?.getD 0 < s.getLast?.getD 0), slope)

/-- `is_trending_ema(ts1, ts2, ts3, short=5, long=20, slope_threshold=0.01)`,
textually identical in `Williams2`, `Clone of Williams2` and
`Williams Alligator with ATR Stop Loss`: all three series must have the short
EMA above the long EMA and relative short-EMA slope above the threshold. -/
def is_trending_ema (ts1 ts2 ts3 : List ℚ) (short long : ℕ) (slope_threshold : ℚ) : Bool :=
  if ts1.length < long then false
  else
    let r1 := ema_with_slope ts1 short long
    let r2 := ema_with_slope ts2 short long
    let r3 := ema_with_slope ts3 short long
    (r1.1 && decide (slope_threshold < r1.2)) &&
      ((r2.1 && decide (slope_threshold < r2.2)) &&
        (r3.1 && decide (slope_threshold < r3.2)))

namespace W2

/-- `np.arange(2, maxLag)`: the candidate lags of `hurst_exponent`. -/
def lagsFor (maxLag : ℕ) : List ℕ := List.range' 2 (maxLag - 2)

/-- The lags surviving the mask `(lags > 0) & (tau > 0)` of
`Williams2.hurst_exponent`.  `tau[i] = sqrt(std(diff(ts, lag)))` is positive
exactly when the population variance of the lagged differences is positive,
so the mask is decided on `popVar` without taking square roots. -/
def maskedLags (ts : List ℚ) (maxLag : ℕ) : List ℕ :=
  (lagsFor maxLag).filter (fun l => decide (0 < l) && decide (0 < popVar (diffLag ts l)))

/-- The branch of `Williams2.hurst_exponent` below the mask: fewer than two
surviving lag points return the neutral `0.5`, otherwise
`np.polyfit(log(lags), log(tau), 1)[0]` runs on the masked arrays.  The
log-log regression slope is irrational, so it is abstracted as the parameter
`pf`, applied to the masked lags and the masked population variances
(`tau = var^(1/4)`, so these determine the regression inputs); every theorem
below holds for an arbitrary `pf`. -/
def hurstCore (pf : List ℕ → List ℚ → ℚ) (ts : List ℚ) (maxLag : ℕ) : ℚ :=
  let masked := maskedLags ts maxLag
  if masked.length < 2 then 1 / 2
  else pf masked (masked.map (fun l => popVar (diffLag ts l)))

/-- `Williams2.hurst_exponent(ts, max_lag=None)` (the call sites always leave
`max_lag=None`): series shorter than 10 return the neutral `0.5`; `max_lag`
is auto-bounded by `max(2, n//2)` and `n-2`, with the auto-shrink fallback to
`max(2, n//3)` mirrored as in the source. -/
def hurst_exponent (pf : List ℕ → List ℚ → ℚ) (ts : List ℚ) : ℚ :=
  let n := ts.length
  if n < 10 then 1 / 2
  else
    let m1 := min (max 2 (n / 2)) (n - 2)
    if n < m1 + 2 then
      let m2 := max 2 (n / 3)
      if n < m2 + 2 then 1 / 2 else hurstCore pf ts m2
    else hurstCore pf ts m1

/-- `Williams2.is_trending(ts, threshold=0.5)`: Hurst exponent above the
threshold. -/
def is_trending (pf : List ℕ → List ℚ → ℚ) (ts : List ℚ) (threshold : ℚ) : Bool :=
  decide (threshold < hurst_exponent pf ts)

end W2

namespace WA

/-- `WilliamsAlligator.hurst_exponent(ts, max_lag=None)`.  Unlike the
`Williams2` version this variant has no length-10 guard and no mask: when
`n < max_lag + 2` it executes `raise ValueError(...)`, modelled as `none`;
otherwise it runs the log-log regression (abstracted by `pf` exactly as in
`W2.hurstCore`) over `np.arange(2, min(max_lag, n-1))`. -/
def hurst_exponent (pf : List ℕ → List ℚ → ℚ) (ts : List ℚ) : Option ℚ :=
  let n := ts.length
  let maxLag := max 2 (n / 2)
  if n < maxLag + 2 then none
  else
    let lags := List.range' 2 (min maxLag (n - 1) - 2)
    some (pf lags (lags.map (fun l => popVar (diffLag ts l))))

end WA

namespace W2

/-- The configuration attributes read by `entry_price_filter`
(`Williams2.Initialize` sets lookback 20, k 1.5, max 2 days; the Clone sets
k 1.0). -/
structure PFConfig where
  use_entry_price_filter : Bool
  price_filter_lookback : ℕ
  price_filter_k : ℚ
  max_peak_days : ℕ
deriving DecidableEq, Repr

/-- The mutable attributes of the peak-confirmation filter:
`wait_peak_check`, `peak_day_hl2`, `peak_check_days`. -/
structure PFState where
  wait_peak_check : Bool
  peak_day_hl2 : Option ℚ
  peak_check_days : ℕ
deriving DecidableEq, Repr

/-- `AlligatorStopLossQC.entry_price_filter(bar, hl2)` of `Williams2/main.py`
(identical in the Clone): the z-score gate with multi-day strict rollover
confirmation.  `sma = np.mean(window)` is computed here; `std = np.std(window)`
is a square root and therefore irrational, so the caller passes the value
`std` (theorems relate it to the window by `std^2 = popVar window`, `0 ≤ std`).
Returns the allow/block boolean and the updated filter state. -/
def entry_price_filter (cfg : PFConfig) (hl2s : List ℚ) (std hl2 : ℚ) (st : PFState) :
    Bool × PFState :=
  if ¬ cfg.use_entry_price_filter then (true, st)
  else if hl2s.length < cfg.price_filter_lookback then (false, st)
  else
    let window := lastN cfg.price_filter_lookback hl2s
    let sma := popMean window
    if std = 0 then (true, st)
    else
      let z := (hl2 - sma) / std
      if z < -cfg.price_filter_k then (true, st)
      else if cfg.price_filter_k < z ∧ ¬ st.wait_peak_check then
        (false, { wait_peak_check := true, peak_day_hl2 := some hl2, peak_check_days := 0 })
      else if st.wait_peak_check then
        let days := st.peak_check_days + 1
        let rollover := match st.peak_day_hl2 with
          | some r => decide (hl2 < r)
          | none => false
        if rollover then
          (false, { wait_peak_check := false, peak_day_hl2 := none, peak_check_days := 0 })
        else if cfg.max_peak_days ≤ days then
          (true, { wait_peak_check := false, peak_day_hl2 := none, peak_check_days := 0 })
        else (false, { st with peak_check_days := days })
      else (true, st)

/-- `SMMAIndicator` as defined (identically) in `Williams2`, the Clone and
`Williams Alligator with ATR Stop Loss`: no `prev` attribute. -/
structure SMMAIndicator where
  length : ℕ
  current : Option ℚ
  count : ℕ
deriving DecidableEq, Repr

/-- `SMMAIndicator.Update(price)` of the `Williams2`-family files. -/
def SMMAIndicator.Update (s : SMMAIndicator) (price : ℚ) : ℚ × SMMAIndicator :=
  match s.current with
  | none => (price, { s with current := some price, count := s.count + 1 })
  | some c =>
    let cur := (c * ((s.length : ℚ) - 1) + price) / (s.length : ℚ)
    (cur, { s with current := some cur, count := s.count + 1 })

/-- `SMMAIndicator.IsReady` of the `Williams2`-family files. -/
def SMMAIndicator.IsReady (s : SMMAIndicator) : Bool := decide (s.length ≤ s.count)

/-- One daily bar as consumed by `Williams2.OnData`. -/
structure Bar where
  high : ℚ
  low : ℚ
  close : ℚ
deriving DecidableEq, Repr

/-- The configuration attributes set in `Williams2.Initialize` that the
decision logic reads. -/
structure W2Config where
  window_size : ℕ
  hurst_threshold : ℚ
  check_Hurst_exponent : Bool
  pf : PFConfig
  lips_price_gap_pct : ℚ
  cooldown_days : ℕ
  stopLossPct : ℚ
  trailingStopPct : ℚ
  jawLength : ℕ
  teethLength : ℕ
  lipsLength : ℕ
deriving DecidableEq, Repr

/-- The values from `Williams2.Initialize`: lookback 20 / k 1.5 / 2 peak days,
6% gap, 3 cooldown days, 0.3% hard and trailing stops, SMMA lengths
20/12/8, Hurst gate disabled. -/
def w2cfg : W2Config :=
  { window_size := 40, hurst_threshold := 1 / 2, check_Hurst_exponent := false,
    pf := { use_entry_price_filter := true, price_filter_lookback := 20,
            price_filter_k := 3 / 2, max_peak_days := 2 },
    lips_price_gap_pct := 6, cooldown_days := 3,
    stopLossPct := 3 / 1000, trailingStopPct := 3 / 1000,
    jawLength := 20, teethLength := 12, lipsLength := 8 }

/-- The mutable attributes of `Williams2.AlligatorStopLossQC` that the
decision logic reads or writes (`invested` models
`self.portfolio.invested`). -/
structure W2State where
  hl2s : List ℚ
  highs : List ℚ
  lows : List ℚ
  closes : List ℚ
  lips_list : List ℚ
  teeth_list : List ℚ
  jaws_list : List ℚ
  jaw : SMMAIndicator
  teeth : SMMAIndicator
  lips : SMMAIndicator
  jaw_prev : Option ℚ
  teeth_prev : Option ℚ
  lips_prev : Option ℚ
  entryPrice : Option ℚ
  highestPrice : Option ℚ
  cooldown_days_remaining : ℕ
  startup_check : Bool
  wait_peak_check : Bool
  peak_day_hl2 : Option ℚ
  peak_check_days : ℕ
  invested : Bool
deriving DecidableEq, Repr

/-- The BUY/SELL decisions of `Williams2`, tagged by the reason string passed
to `self.buy` / `self.sell`. -/
inductive W2Action where
  | buyStartup
  | buyCross
  | sellTrailing
  | sellHardStop
  | sellLipsTeethBuffer
  | sellLipsJaw
deriving DecidableEq, Repr

/-- `Williams2.buy(bar, reason)`: invest, record entry and running high, arm
the cooldown. -/
def buyAct (cfg : W2Config) (st : W2State) (close : ℚ) : W2State :=
  { st with invested := true, entryPrice := some close, highestPrice := some close,
            cooldown_days_remaining := cfg.cooldown_days }

/-- `Williams2.sell(bar, reason)`: liquidate and clear entry and running
high. -/
def sellAct (st : W2State) : W2State :=
  { st with invested := false, entryPrice := none, highestPrice := none }

/-- `Williams2.update_indicators(bar)`: append the rolling arrays, return
`None` until one full period of the longest SMMA has been collected,
otherwise update the three SMMA lines and append their values. -/
def update_indicators (cfg : W2Config) (st : W2State) (bar : Bar) :
    Option (ℚ × ℚ × ℚ × ℚ) × W2State :=
  let hl2 := (bar.high + bar.low) / 2
  let st1 := { st with highs := st.highs ++ [bar.high], lows := st.lows ++ [bar.low],
                       closes := st.closes ++ [bar.close], hl2s := st.hl2s ++ [hl2] }
  let min_len := max (max cfg.jawLength cfg.teethLength) cfg.lipsLength + 1
  if st1.hl2s.length < min_len then (none, st1)
  else
    let rj := st1.jaw.Update hl2
    let rt := st1.teeth.Update hl2
    let rl := st1.lips.Update hl2
    (some (hl2, rj.1, rt.1, rl.1),
      { st1 with jaw := rj.2, teeth := rt.2, lips := rl.2,
                 lips_list := st1.lips_list ++ [rl.1],
                 teeth_list := st1.teeth_list ++ [rt.1],
                 jaws_list := st1.jaws_list ++ [rj.1] })

/-- `Williams2.compute_trend_flag()`: Hurst gate when enabled, otherwise the
lightweight EMA trend over the last 20 values of HL2, lips and teeth. -/
def compute_trend_flag (pf : List ℕ → List ℚ → ℚ) (cfg : W2Config) (st : W2State) : Bool :=
  if cfg.check_Hurst_exponent then
    if st.hl2s.length < cfg.window_size then false
    else is_trending pf (lastN cfg.window_size st.hl2s) cfg.hurst_threshold
  else
    is_trending_ema (lastN 20 st.hl2s) (lastN 20 st.lips_list) (lastN 20 st.teeth_list)
      5 20 (1 / 100)

/-- `Williams2.lips_price_gap_ok(lips_val, hl2)`: block when HL2 exceeds lips
by more than the configured percentage (bypass on a negative setting). -/
def lips_price_gap_ok (cfg : W2Config) (lips_val hl2 : ℚ) : Bool :=
  if cfg.lips_price_gap_pct < 0 then true
  else decide (¬ (lips_val * (1 + cfg.lips_price_gap_pct / 100) < hl2))

/-- `Williams2.check_entry(bar, hl2, jaw, teeth, lips)`.  The trend gate runs
first; then the startup catch-up block (whose disabling assignment
`self.startup_check = False` is commented out in this file, and which does
not return, so the cross-entry check still runs afterwards); then the
lips-over-teeth cross entry guarded by the gap filter and the z-score
filter.  `stdOf` supplies the value of `np.std` on the filter window (see
`entry_price_filter`). -/
def check_entry (pf : List ℕ → List ℚ → ℚ) (stdOf : List ℚ → ℚ) (cfg : W2Config)
    (st : W2State) (bar : Bar) (hl2 _jaw teeth lips : ℚ) : W2State × List W2Action :=
  if ¬ (compute_trend_flag pf cfg st = true) then (st, [])
  else
    let r1 : W2State × List W2Action :=
      if st.startup_check ∧ ¬ st.invested then
        ({ buyAct cfg st bar.close with wait_peak_check := false }, [W2Action.buyStartup])
      else (st, [])
    let st1 := r1.1
    let lips_cross_up := match st.lips_prev, st.teeth_prev with
      | some lp, some tp => decide (lp ≤ tp) && decide (teeth < lips)
      | _, _ => false
    if lips_cross_up then
      if lips_price_gap_ok cfg lips hl2 then
        let fr := entry_price_filter cfg.pf st1.hl2s
          (stdOf (lastN cfg.pf.price_filter_lookback st1.hl2s)) hl2
          { wait_peak_check := st1.wait_peak_check, peak_day_hl2 := st1.peak_day_hl2,
            peak_check_days := st1.peak_check_days }
        let st2 := { st1 with
          wait_peak_check := fr.2.wait_peak_check,
          peak_day_hl2 := fr.2.peak_day_hl2,
          peak_check_days := fr.2.peak_check_days }
        if fr.1 then
          ({ buyAct cfg st2 bar.close with wait_peak_check := false },
            r1.2 ++ [W2Action.buyCross])
        else (st2, r1.2)
      else (st1, r1.2)
    else (st1, r1.2)

/-- `Williams2.check_exit(bar, jaw, teeth, lips)`: update the running high,
then in order try the trailing stop, the hard stop from entry, the buffered
lips-below-teeth cross and the lips-below-jaw cross; every sell also sets
`wait_peak_check = True` at its call site. -/
def check_exit (cfg : W2Config) (st : W2State) (bar : Bar) (jaw teeth lips : ℚ) :
    W2State × List W2Action :=
  match st.entryPrice with
  | none => (st, [])
  | some entry =>
    let price := bar.close
    let high := match st.highestPrice with
      | none => price
      | some h => if h < price then price else h
    let st1 := { st with highestPrice := some high }
    if price ≤ high * (1 - cfg.trailingStopPct) then
      ({ sellAct st1 with wait_peak_check := true }, [W2Action.sellTrailing])
    else if price ≤ entry * (1 - cfg.stopLossPct) then
      ({ sellAct st1 with wait_peak_check := true }, [W2Action.sellHardStop])
    else
      let lips_cross_down_with_buffer := match st1.lips_prev, st1.teeth_prev with
        | some lp, some tp => decide (tp ≤ lp) && decide (105 / 100 * lips < teeth)
        | _, _ => false
      if lips_cross_down_with_buffer then
        ({ sellAct st1 with wait_peak_check := true }, [W2Action.sellLipsTeethBuffer])
      else
        let lips_below_jaw := match st1.lips_prev, st1.jaw_prev with
          | some lp, some jp => decide (jp ≤ lp) && decide (lips < jaw)
          | _, _ => false
        if lips_below_jaw then
          ({ sellAct st1 with wait_peak_check := true }, [W2Action.sellLipsJaw])
        else (st1, [])

/-- `Williams2.OnData(data)`: update indicators (bailing out during warm-up),
run the entry evaluator when flat, the exit evaluator when invested and out
of cooldown, store the previous line values, then decrement an active
cooldown. -/
def step (pf : List ℕ → List ℚ → ℚ) (stdOf : List ℚ → ℚ) (cfg : W2Config)
    (st : W2State) (bar : Bar) : W2State × List W2Action :=
  let r0 := update_indicators cfg st bar
  match r0.1 with
  | none => (r0.2, [])
  | some (hl2, jaw, teeth, lips) =>
    let stA := r0.2
    let r :=
      if ¬ stA.invested then check_entry pf stdOf cfg stA bar hl2 jaw teeth lips
      else if stA.cooldown_days_remaining = 0 then check_exit cfg stA bar jaw teeth lips
      else (stA, [])
    let st1 : W2State := { r.1 with
      jaw_prev := some jaw, teeth_prev := some teeth, lips_prev := some lips }
    let st2 : W2State := if 0 < st1.cooldown_days_remaining then
        { st1 with cooldown_days_remaining := st1.cooldown_days_remaining - 1 }
      else st1
    (st2, r.2)

/-- Feed a list of bars through `step`, collecting all decisions. -/
def run (pf : List ℕ → List ℚ → ℚ) (stdOf : List ℚ → ℚ) (cfg : W2Config)
    (st : W2State) : List Bar → W2State × List W2Action
  | [] => (st, [])
  | b :: bs =>
    let r := step pf stdOf cfg st b
    let rest := run pf stdOf cfg r.1 bs
    (rest.1, r.2 ++ rest.2)

end W2

namespace WA

/-- One daily bar as consumed by
`Williams Alligator with ATR Stop Loss/main.py`.  The Wilder ATR is a
platform indicator (an external collaborator), so its readiness flag and
current value arrive with the bar. -/
structure WABar where
  high : ℚ
  low : ℚ
  close : ℚ
  atrReady : Bool
  atrValue : ℚ
deriving DecidableEq, Repr

/-- The configuration attributes of the
`Williams Alligator with ATR Stop Loss` variant that the decision logic
reads (`Initialize` sets cooldown 1 day, lengths 13/8/5, ATR multiplier
0.2). -/
structure WAConfig where
  cooldown_days : ℕ
  atr_multiplier : ℚ
  jawLength : ℕ
  teethLength : ℕ
  lipsLength : ℕ
deriving DecidableEq, Repr

/-- The values from that file's `Initialize`. -/
def wacfg : WAConfig :=
  { cooldown_days := 1, atr_multiplier := 1 / 5,
    jawLength := 13, teethLength := 8, lipsLength := 5 }

/-- The mutable attributes of the `Williams Alligator with ATR Stop Loss`
algorithm that the decision logic reads or writes. -/
structure WAState where
  hl2s : List ℚ
  lips_list : List ℚ
  teeth_list : List ℚ
  jaws_list : List ℚ
  jaw : W2.SMMAIndicator
  teeth : W2.SMMAIndicator
  lips : W2.SMMAIndicator
  jaw_prev : Option ℚ
  teeth_prev : Option ℚ
  lips_prev : Option ℚ
  entryPrice : Option ℚ
  highestPrice : Option ℚ
  cooldown_days_remaining : ℕ
  startup_check : Bool
  invested : Bool
deriving DecidableEq, Repr

/-- The BUY/SELL decisions of the `Williams Alligator with ATR Stop Loss`
variant, tagged by the reason string. -/
inductive WAAction where
  | buyStartup
  | buyLipsCross
  | sellAtrStop
  | sellLipsTeeth
  | sellLipsJaw
deriving DecidableEq, Repr

/-- That file's `buy(bar, reason)`: guarded by `if not invested`. -/
def buyAct (cfg : WAConfig) (st : WAState) (close : ℚ) : WAState :=
  if st.invested then st
  else { st with invested := true, entryPrice := some close, highestPrice := some close,
                 cooldown_days_remaining := cfg.cooldown_days }

/-- That file's `sell(bar, reason)`: liquidate, clear entry state and re-arm
the cooldown. -/
def sellAct (cfg : WAConfig) (st : WAState) : WAState :=
  { st with invested := false, entryPrice := none, highestPrice := none,
            cooldown_days_remaining := cfg.cooldown_days }

/-- That file's `check_entry(bar, jaw, teeth, lips)`: 20-bar data gate, EMA
trend gate, then the one-time startup catch-up (this variant keeps the
`self.startup_check = False` assignment and returns), else the
lips-over-teeth cross entry. -/
def check_entry (cfg : WAConfig) (st : WAState) (bar : WABar) (_jaw teeth lips : ℚ) :
    WAState × List WAAction :=
  if st.hl2s.length < 20 then (st, [])
  else if ¬ (is_trending_ema (lastN 20 st.hl2s) (lastN 20 st.lips_list)
      (lastN 20 st.teeth_list) 5 20 (1 / 100) = true) then (st, [])
  else
    let lips_cross_up := match st.lips_prev, st.teeth_prev with
      | some lp, some tp => decide (lp ≤ tp) && decide (teeth < lips)
      | _, _ => false
    if st.startup_check then
      if ¬ st.invested then
        ({ buyAct cfg st bar.close with startup_check := false }, [WAAction.buyStartup])
      else (st, [])
    else if lips_cross_up then (buyAct cfg st bar.close, [WAAction.buyLipsCross])
    else (st, [])

/-- That file's `check_exit(bar, jaw, teeth, lips)`: ATR stop from entry,
then the lips-below-teeth cross, then the lips-below-jaw cross. -/
def check_exit (cfg : WAConfig) (st : WAState) (bar : WABar) (jaw teeth lips : ℚ) :
    WAState × List WAAction :=
  match st.entryPrice with
  | none => (st, [])
  | some entry =>
    let price := bar.close
    let atr_stop := entry - cfg.atr_multiplier * bar.atrValue
    if price ≤ atr_stop then (sellAct cfg st, [WAAction.sellAtrStop])
    else
      let lips_cross_down := match st.lips_prev, st.teeth_prev with
        | some lp, some tp => decide (tp ≤ lp) && decide (lips < teeth)
        | _, _ => false
      if lips_cross_down then (sellAct cfg st, [WAAction.sellLipsTeeth])
      else
        let lips_below_jaw := match st.lips_prev, st.jaw_prev with
          | some lp, some jp => decide (jp ≤ lp) && decide (lips < jaw)
          | _, _ => false
        if lips_below_jaw then (sellAct cfg st, [WAAction.sellLipsJaw])
        else (st, [])

/-- That file's `OnData(data)`: bail out until the three SMMA lines and the
ATR are ready; update the lines and rolling lists; when invested run the
exit evaluator only if `cooldown_days_remaining == 0` (the counter is
decremented only in the not-invested branch); when flat either count the
cooldown down or run the entry evaluator; finally store the previous line
values. -/
def step (cfg : WAConfig) (st : WAState) (bar : WABar) : WAState × List WAAction :=
  if ¬ (st.jaw.IsReady && st.teeth.IsReady && st.lips.IsReady && bar.atrReady) then (st, [])
  else
    let hl2 := (bar.high + bar.low) / 2
    let rj := st.jaw.Update hl2
    let rt := st.teeth.Update hl2
    let rl := st.lips.Update hl2
    let stA : WAState := { st with
      jaw := rj.2, teeth := rt.2, lips := rl.2,
      hl2s := st.hl2s ++ [hl2],
      lips_list := st.lips_list ++ [rl.1],
      teeth_list := st.teeth_list ++ [rt.1],
      jaws_list := st.jaws_list ++ [rj.1] }
    let r :=
      if stA.invested then
        if stA.cooldown_days_remaining = 0 then check_exit cfg stA bar rj.1 rt.1 rl.1
        else (stA, [])
      else
        if 0 < stA.cooldown_days_remaining then
          ({ stA with cooldown_days_remaining := stA.cooldown_days_remaining - 1 }, [])
        else check_entry cfg stA bar rj.1 rt.1 rl.1
    ({ r.1 with jaw_prev := some rj.1, teeth_prev := some rt.1, lips_prev := some rl.1 },
      r.2)

/-- Feed a list of bars through `step`, collecting all decisions. -/
def run (cfg : WAConfig) (st : WAState) : List WABar → WAState × List WAAction
  | [] => (st, [])
  | b :: bs =>
    let r := step cfg st b
    let rest := run cfg r.1 bs
    (rest.1, r.2 ++ rest.2)

end WA

/-- A stand-in for the log-log regression slope used when a concrete run
never reaches the regression (every theorem quantifying over the regression
holds for an arbitrary function, so any instance may be supplied). -/
def pfZero : List ℕ → List ℚ → ℚ := fun _ _ => 0

/-- A stand-in for `np.std` used in concrete runs that never call the
z-score filter. -/
def stdZero : List ℚ → ℚ := fun _ => 0

/-- A strictly rising 20-value window `100, 101, ..., 119`. -/
def rampUp : List ℚ := (List.range 20).map (fun i => 100 + (i : ℚ))

/-- A bar whose high, low and close coincide. -/
def mkBar (p : ℚ) : W2.Bar := { high := p, low := p, close := p }

/-- A reachable post-warm-up `Williams2` state: flat, startup rule armed
(as `Initialize` leaves it), rolling windows in a steady up-trend, previous
line values in bullish order. -/
def startupRunState : W2.W2State :=
  { hl2s := rampUp, highs := [], lows := [], closes := [],
    lips_list := rampUp, teeth_list := rampUp, jaws_list := rampUp,
    jaw := { length := 20, current := some 119, count := 30 },
    teeth := { length := 12, current := some 119, count := 30 },
    lips := { length := 8, current := some 119, count := 30 },
    jaw_prev := some 117, teeth_prev := some 118, lips_prev := some 119,
    entryPrice := none, highestPrice := none, cooldown_days_remaining := 0,
    startup_check := true, wait_peak_check := false, peak_day_hl2 := none,
    peak_check_days := 0, invested := false }

/-- Five bars: three rising bars, a dip that trips the 0.3% trailing stop,
then a recovery bar. -/
def startupRunBars : List W2.Bar :=
  [mkBar 121, mkBar 122, mkBar 123, mkBar 118, mkBar 124]

/-- A reachable `Williams2` state one bar after a BUY at close 100 with
cooldown 3 (already decremented once at the end of the BUY bar). -/
def cooldownState : W2.W2State :=
  { hl2s := List.replicate 20 100, highs := [], lows := [], closes := [],
    lips_list := List.replicate 20 100, teeth_list := List.replicate 20 100,
    jaws_list := List.replicate 20 100,
    jaw := { length := 20, current := some 100, count := 30 },
    teeth := { length := 12, current := some 100, count := 30 },
    lips := { length := 8, current := some 100, count := 30 },
    jaw_prev := some 100, teeth_prev := some 100, lips_prev := some 100,
    entryPrice := some 100, highestPrice := some 100, cooldown_days_remaining := 2,
    startup_check := true, wait_peak_check := false, peak_day_hl2 := none,
    peak_check_days := 0, invested := true }

/-- A reachable `Williams Alligator with ATR Stop Loss` state just after a
BUY at 100: invested with `cooldown_days_remaining = 1` (the configured
cooldown), lines ready. -/
def investedWaitState : WA.WAState :=
  { hl2s := List.replicate 25 100, lips_list := List.replicate 25 100,
    teeth_list := List.replicate 25 100, jaws_list := List.replicate 25 100,
    jaw := { length := 13, current := some 100, count := 20 },
    teeth := { length := 8, current := some 100, count := 20 },
    lips := { length := 5, current := some 100, count := 20 },
    jaw_prev := some 100, teeth_prev := some 100, lips_prev := some 100,
    entryPrice := some 100, highestPrice := some 100, cooldown_days_remaining := 1,
    startup_check := false, invested := true }

/-- Five crash bars (close 50, ATR 10, far below every stop level). -/
def crashBars : List WA.WABar :=
  List.replicate 5 { high := 50, low := 50, close := 50, atrReady := true, atrValue := 10 }

/-- A 20-value window of ten 0s and ten 2s: population mean 1 and
population variance 1, so `np.std` of it is exactly 1. -/
def flatWindow : List ℚ :=
  [0, 0, 0, 0, 0, 0, 0, 0, 0, 0, 2, 2, 2, 2, 2, 2, 2, 2, 2, 2]

/-- A reachable invested `Williams2` state (entry and running high 100)
whose peak filter is idle. -/
def investedIdleState : W2.W2State :=
  { cooldownState with cooldown_days_remaining := 0 }

section CrossoverClaims

open ATR1

/-- Helper: the one-call update increments the SMMA count by one. -/
theorem smma_update_count (s : SMMAIndicator) (p : ℚ) :
    ((s.Update p).2).count = s.count + 1 := by
  cases h : s.current <;> simp [SMMAIndicator.Update, h]

/-- Helper: the one-call update keeps the SMMA length. -/
theorem smma_update_length (s : SMMAIndicator) (p : ℚ) :
    ((s.Update p).2).length = s.length := by
  cases h : s.current <;> simp [SMMAIndicator.Update, h]

/-- Helper: one `ShiftedLine.Update` call keeps the shift. -/
theorem shifted_update_shift (s : ShiftedLine) (p : ℚ) :
    ((s.Update p).2).shift = s.shift := by
  simp [ShiftedLine.Update]

/-- Helper: one `ShiftedLine.Update` call keeps the period. -/
theorem shifted_update_period (s : ShiftedLine) (p : ℚ) :
    ((s.Update p).2).smma.length = s.smma.length := by
  simp [ShiftedLine.Update, smma_update_length]

/-- Helper: one `ShiftedLine.Update` call increments the count. -/
theorem shifted_update_count (s : ShiftedLine) (p : ℚ) :
    ((s.Update p).2).smma.count = s.smma.count + 1 := by
  simp [ShiftedLine.Update, smma_update_count]

/-- Helper: the bounded buffer grows by one element per update, capped at
`shift + 1` (the deque capacity). -/
theorem shifted_update_buflen (s : ShiftedLine) (p : ℚ) :
    ((s.Update p).2).buf.length = min (s.buf.length + 1) (s.shift + 1) := by
  simp only [ShiftedLine.Update]
  split
  · next h =>
    simp only [List.length_drop, List.length_append, List.length_singleton] at *
    omega
  · next h =>
    simp only [List.length_append, List.length_singleton] at *
    omega

/-- Helper: after feeding `ps`, the count has grown by `ps.length`. -/
theorem shifted_updates_count (ps : List ℚ) (s : ShiftedLine) :
    ((s.updates ps)).smma.count = s.smma.count + ps.length := by
  induction ps generalizing s with
  | nil => simp [ShiftedLine.updates]
  | cons p ps ih =>
    simp [ShiftedLine.updates, ih, shifted_update_count]
    omega

/-- Helper: feeding bars does not change the shift. -/
theorem shifted_updates_shift (ps : List ℚ) (s : ShiftedLine) :
    ((s.updates ps)).shift = s.shift := by
  induction ps generalizing s with
  | nil => simp [ShiftedLine.updates]
  | cons p ps ih => simp [ShiftedLine.updates, ih, shifted_update_shift]

/-- Helper: feeding bars does not change the period. -/
theorem shifted_updates_period (ps : List ℚ) (s : ShiftedLine) :
    ((s.updates ps)).smma.length = s.smma.length := by
  induction ps generalizing s with
  | nil => simp [ShiftedLine.updates]
  | cons p ps ih => simp [ShiftedLine.updates, ih, shifted_update_period]

/-- Helper: the buffer length after feeding `ps` bars, provided the buffer
starts within its capacity (true of every reachable state). -/
theorem shifted_updates_buflen (ps : List ℚ) (s : ShiftedLine)
    (h : s.buf.length ≤ s.shift + 1) :
    ((s.updates ps)).buf.length = min (s.buf.length + ps.length) (s.shift + 1) := by
  induction ps generalizing s with
  | nil => simp [ShiftedLine.updates]; omega
  | cons p ps ih =>
    have hb := shifted_update_buflen s p
    have hs := shifted_update_shift s p
    have h1 : ((s.Update p).2).buf.length ≤ ((s.Update p).2).shift + 1 := by
      rw [hb, hs]; omega
    have := ih ((s.Update p).2) h1
    simp only [ShiftedLine.updates] at *
    rw [this, hb, hs]
    simp only [List.length_cons]
    omega

end CrossoverClaims

section ClaimC1

open ATR1

/-- C1: the crossover detector emits true exactly on bars where the price is
above the lips line, the lines are in bullish order, and the pre-bar state
is `BELOW_ALL`, `ReArmed` or `MOUTH_SHUT`.  In particular every transition
from a bearish/below-all configuration to such a bar emits true on exactly
that bar, no bar in `ABOVE_lips` emits, and after `rearm()` (state
`ReArmed`) the next qualifying bar emits true without a `BELOW_ALL` visit;
but a `MOUTH_SHUT` re-opening also emits true with no intervening bearish
configuration, which is what the claim's "false on every other bar" misses. -/
theorem cross_update_emits_iff (s : CrossState) (price jaw teeth lips : ℚ) :
    (update_state s price jaw teeth lips).2 = true ↔
      (lips < price ∧ teeth < lips ∧ jaw < teeth ∧
        (s = CrossState.belowAll ∨ s = CrossState.reArmed ∨ s = CrossState.mouthShut)) := by
  cases s <;> simp only [update_state, gt_iff_lt] <;> split_ifs <;>
    simp_all <;> (intros; linarith)

/-- C1 counterexample: a four-bar run — bearish reset, qualifying bar
(true), a bar that merely closes the mouth (lines not bearish, price not
below them), then a qualifying bar again — emits true twice although only
the second bar is a transition from a bearish/below-all configuration and
`rearm` is never called. -/
theorem cross_double_emission_without_reset :
    (runCross crossInit
        [⟨0, 3, 2, 1⟩, ⟨4, 1, 2, 3⟩, ⟨5, 1, 3, 2⟩, ⟨4, 1, 2, 3⟩]).2 =
      [false, true, false, true] ∧
    ¬ ((5 : ℚ) < 2 ∧ (5 : ℚ) < 3 ∧ (5 : ℚ) < 1) ∧ ¬ ((2 : ℚ) < 3 ∧ (3 : ℚ) < 1) := by
  decide

end ClaimC1

section ClaimC7

open ATR1

/-- C7: on every update where the price is below all three lines and the
lines are in bearish order, the machine (re-)enters `BELOW_ALL` from any
state and emits false.  (The claim's other half fails: a freshly
constructed machine starts in the distinct `unknown` state, see the
counterexample.) -/
theorem bearish_bar_resets_to_belowAll (s : CrossState) (price jaw teeth lips : ℚ)
    (h1 : price < lips) (h2 : price < teeth) (h3 : price < jaw)
    (h4 : lips < teeth) (h5 : teeth < jaw) :
    update_state s price jaw teeth lips = (CrossState.belowAll, false) := by
  simp only [update_state]
  rw [if_pos ⟨⟨h1, h2, h3⟩, h4, h5⟩]

/-- C7 witness: the bearish-reset theorem at a concrete bearish bar from the
`ABOVE_lips` state. -/
theorem bearish_reset_witness :
    (0 : ℚ) < 1 ∧ (0 : ℚ) < 2 ∧ (0 : ℚ) < 3 ∧ (1 : ℚ) < 2 ∧ (2 : ℚ) < 3 ∧
      update_state CrossState.aboveLips 0 3 2 1 = (CrossState.belowAll, false) :=
  ⟨by norm_num, by norm_num, by norm_num, by norm_num, by norm_num,
    bearish_bar_resets_to_belowAll CrossState.aboveLips 0 3 2 1
      (by norm_num) (by norm_num) (by norm_num) (by norm_num) (by norm_num)⟩

/-- C7 counterexample: `__init__` sets the state to `"unknown"`, not
`"BELOW_ALL"`, and the two states are observably different: on the same
qualifying bar the fresh machine emits false where `BELOW_ALL` emits
true. -/
theorem fresh_machine_not_belowAll :
    crossInit ≠ CrossState.belowAll ∧
    (update_state crossInit 4 1 2 3).2 = false ∧
    (update_state CrossState.belowAll 4 1 2 3).2 = true := by
  decide

end ClaimC7

section ClaimC2

open ATR1

/-- C2: a `ShiftedLine` with period `p` and shift `s` reports `IsReady`
exactly once it has received at least `max p (s+1)` updates — at least `p`
for the smoother count and at least `s+1` to fill the deque — regardless of
the input values; not after `p + s` updates as the claim states. -/
theorem shifted_isReady_iff (p : ℤ) (s : ℕ) (inputs : List ℚ) :
    ((ShiftedLine.start p s).updates inputs).IsReady = true ↔
      (p ≤ (inputs.length : ℤ) ∧ s + 1 ≤ inputs.length) := by
  have hc := shifted_updates_count inputs (ShiftedLine.start p s)
  have hp := shifted_updates_period inputs (ShiftedLine.start p s)
  have hs := shifted_updates_shift inputs (ShiftedLine.start p s)
  have hb := shifted_updates_buflen inputs (ShiftedLine.start p s) (by
    simp [ShiftedLine.start])
  simp only [ShiftedLine.IsReady, SMMAIndicator.IsReady, Bool.and_eq_true,
    decide_eq_true_eq] at *
  rw [hc, hp, hs, hb]
  simp [ShiftedLine.start, SMMAIndicator.start]

/-- C2 counterexample: the source's lips line `ShiftedLine(5, 3)` is ready
after only 5 updates, within the first `period + shift = 8` updates where
the claim requires `is_ready` to still be false. -/
theorem shifted_ready_before_period_plus_shift :
    ((ShiftedLine.start 5 3).updates [1, 1, 1, 1, 1]).IsReady = true ∧
    (5 : ℕ) ≤ 5 + 3 := by
  decide

end ClaimC2

section ClaimC9

open ATR1

/-- C9: the constructors perform no validation: any period, including
`period ≤ 0`, is stored unchanged (not clamped, no error), the resulting
smoother is immediately "ready" (`count = 0 ≥ length`), and its first
update works normally; `ShiftedLine` embeds the same unvalidated
smoother. -/
theorem constructors_accept_invalid_period (len : ℤ) (sh : ℕ) (h : len ≤ 0) :
    (SMMAIndicator.start len).length = len ∧
    (SMMAIndicator.start len).IsReady = true ∧
    ((SMMAIndicator.start len).Update 5).2.current = some 5 ∧
    (ShiftedLine.start len sh).smma.length = len := by
  refine ⟨rfl, ?_, rfl, rfl⟩
  simp [SMMAIndicator.start, SMMAIndicator.IsReady]
  exact h

/-- C9 witness: the no-validation theorem at period 0. -/
theorem constructors_accept_invalid_witness :
    (0 : ℤ) ≤ 0 ∧
    ((SMMAIndicator.start 0).length = 0 ∧
      (SMMAIndicator.start 0).IsReady = true ∧
      ((SMMAIndicator.start 0).Update 5).2.current = some 5 ∧
      (ShiftedLine.start 0 0).smma.length = 0) :=
  ⟨le_refl 0, constructors_accept_invalid_period 0 0 (le_refl 0)⟩

/-- C9 counterexample: `SMMAIndicator(0)` is constructed without any error
— an existing smoother instance with period < 1, which the claim says can
never exist — and it is even immediately `IsReady`. -/
theorem period_zero_instance_exists :
    (SMMAIndicator.start 0).length = 0 ∧ (SMMAIndicator.start 0).IsReady = true := by
  decide

end ClaimC9

section ClaimC5

/-- C5: a "cheap" bar (z-score strictly below `-k` against the rolling
window, with a nonzero standard deviation) passes the entry price filter
immediately — and leaves the whole waiting state untouched: contrary to the
claim, the cheap branch performs no reset of `wait_peak_check`. -/
theorem filter_cheap_passes_state_unchanged (cfg : W2.PFConfig) (hl2s : List ℚ)
    (std hl2 : ℚ) (st : W2.PFState)
    (hu : cfg.use_entry_price_filter = true)
    (hlen : cfg.price_filter_lookback ≤ hl2s.length)
    (hstd : std ≠ 0)
    (hcheap : (hl2 - popMean (lastN cfg.price_filter_lookback hl2s)) / std <
      -cfg.price_filter_k) :
    W2.entry_price_filter cfg hl2s std hl2 st = (true, st) := by
  simp only [W2.entry_price_filter]
  rw [if_neg (by simp [hu]), if_neg (by omega), if_neg hstd, if_pos hcheap]

unseal Rat.add Rat.mul Rat.inv Rat.sub in
/-- C5 witness: the cheap-pass theorem on a concrete window with standard
deviation exactly 1 and an idle filter state. -/
theorem filter_cheap_witness :
    (W2.w2cfg.pf.use_entry_price_filter = true ∧
      W2.w2cfg.pf.price_filter_lookback ≤ flatWindow.length ∧
      (1 : ℚ) ≠ 0 ∧
      ((-2 : ℚ) - popMean (lastN W2.w2cfg.pf.price_filter_lookback flatWindow)) / 1 <
        -W2.w2cfg.pf.price_filter_k) ∧
    W2.entry_price_filter W2.w2cfg.pf flatWindow 1 (-2)
        { wait_peak_check := false, peak_day_hl2 := none, peak_check_days := 0 } =
      (true, { wait_peak_check := false, peak_day_hl2 := none, peak_check_days := 0 }) :=
  ⟨⟨by decide, by decide, by decide, by decide⟩,
    filter_cheap_passes_state_unchanged W2.w2cfg.pf flatWindow 1 (-2)
      { wait_peak_check := false, peak_day_hl2 := none, peak_check_days := 0 }
      (by decide) (by decide) (by decide) (by decide)⟩

unseal Rat.add Rat.mul Rat.inv Rat.sub in
/-- C5 counterexample: the same cheap bar evaluated while the filter is
waiting (`wait_peak_check = true`, a recorded reference price and one day
counted): the filter passes but the waiting state survives unchanged,
whereas the claim requires it to be reset to not-waiting.  The first two
conjuncts certify that the bar is genuinely cheap: the window has
population variance 1 (so `np.std` of it is exactly 1) and the z-score is
−3, below `−k = −1.5`. -/
theorem filter_cheap_keeps_waiting_state :
    popVar (lastN 20 flatWindow) = 1 ∧
    ((-2 : ℚ) - popMean (lastN 20 flatWindow)) / 1 < -(3 / 2) ∧
    W2.entry_price_filter W2.w2cfg.pf flatWindow 1 (-2)
        { wait_peak_check := true, peak_day_hl2 := some 100, peak_check_days := 1 } =
      (true, { wait_peak_check := true, peak_day_hl2 := some 100, peak_check_days := 1 }) := by
  decide

end ClaimC5

section ClaimC6

/-- Helper: every lag surviving the mask of `Williams2.hurst_exponent` is at
least 2 and has lagged differences of positive variance. -/
theorem maskedLags_mem (ts : List ℚ) (m l : ℕ) (h : l ∈ W2.maskedLags ts m) :
    2 ≤ l ∧ 0 < popVar (diffLag ts l) := by
  simp only [W2.maskedLags, List.mem_filter, W2.lagsFor, List.mem_range'_1,
    Bool.and_eq_true, decide_eq_true_eq] at h
  exact ⟨h.1.1, h.2.2⟩

/-- Helper: `hurstCore` either returns the neutral value or applies the
regression to at least two masked lags. -/
theorem hurstCore_cases (pf : List ℕ → List ℚ → ℚ) (ts : List ℚ) (m : ℕ) :
    W2.hurstCore pf ts m = 1 / 2 ∨
      (2 ≤ (W2.maskedLags ts m).length ∧
        W2.hurstCore pf ts m =
          pf (W2.maskedLags ts m)
            ((W2.maskedLags ts m).map (fun l => popVar (diffLag ts l)))) := by
  by_cases h : (W2.maskedLags ts m).length < 2
  · left
    simp [W2.hurstCore, h]
  · right
    exact ⟨by omega, by simp [W2.hurstCore, h]⟩

/-- C6: totality and fallback structure of the `Williams2` Hurst variant:
a series shorter than 10 yields the neutral 0.5; in general the function
either yields 0.5 or hands a well-posed regression problem — at least two
lags, each at least 2 with positive variance of the lagged differences, so
all logarithms are finite and the fit is over distinct points — to the
log-log regression; and the trend decision is exactly `H > threshold`.
(The claim fails only for the `WilliamsAlligator` variant, which raises —
see the counterexample.) -/
theorem hurst_neutral_and_regression_wellposed (pf : List ℕ → List ℚ → ℚ)
    (ts : List ℚ) (threshold : ℚ) :
    (ts.length < 10 → W2.hurst_exponent pf ts = 1 / 2) ∧
    (W2.hurst_exponent pf ts = 1 / 2 ∨
      ∃ m, (2 ≤ (W2.maskedLags ts m).length ∧
        (∀ l ∈ W2.maskedLags ts m, 2 ≤ l ∧ 0 < popVar (diffLag ts l)) ∧
        W2.hurst_exponent pf ts =
          pf (W2.maskedLags ts m)
            ((W2.maskedLags ts m).map (fun l => popVar (diffLag ts l))))) ∧
    (W2.is_trending pf ts threshold = true ↔ threshold < W2.hurst_exponent pf ts) := by
  refine ⟨?_, ?_, ?_⟩
  · intro h
    simp [W2.hurst_exponent, h]
  · by_cases h10 : ts.length < 10
    · left
      simp [W2.hurst_exponent, h10]
    · simp only [W2.hurst_exponent, h10, if_false]
      split_ifs with ha hb
      · left; rfl
      · rcases hurstCore_cases pf ts (max 2 (ts.length / 3)) with h | ⟨h2, he⟩
        · left; exact h
        · right
          exact ⟨max 2 (ts.length / 3), h2, fun l hl => maskedLags_mem ts _ l hl, he⟩
      · rcases hurstCore_cases pf ts (min (max 2 (ts.length / 2)) (ts.length - 2)) with
          h | ⟨h2, he⟩
        · left; exact h
        · right
          exact ⟨min (max 2 (ts.length / 2)) (ts.length - 2), h2,
            fun l hl => maskedLags_mem ts _ l hl, he⟩
  · simp [W2.is_trending]

/-- C6 witness: the fallback theorem applied to a concrete three-element
series, whose short length forces the neutral value. -/
theorem hurst_neutral_witness :
    ([1, 2, 3] : List ℚ).length < 10 ∧
      W2.hurst_exponent pfZero [1, 2, 3] = 1 / 2 :=
  ⟨by decide, (hurst_neutral_and_regression_wellposed pfZero [1, 2, 3] 0).1 (by decide)⟩

/-- C6 counterexample: the `WilliamsAlligator` variant of `hurst_exponent`
executes `raise ValueError` (embedded as `none`) on the three-element
series `[1, 2, 3]`, so the claim that the persistence test never raises
and returns 0.5 on short series is false for that cited variant. -/
theorem hurstWA_short_series_raises :
    WA.hurst_exponent pfZero [1, 2, 3] = none ∧ ([1, 2, 3] : List ℚ).length < 10 := by
  decide

end ClaimC6

section ClaimC10

/-- C10: every SELL issued by `Williams2.check_exit` leaves the filter
waiting: whenever the exit evaluator emits any action, the resulting state
has `wait_peak_check = true` while `peak_day_hl2` is exactly what it was
before (no reference price is recorded); and an evaluation of the entry
price filter in that waiting-without-reference state (on a non-cheap bar
with nonzero deviation) blocks until the day counter reaches
`max_peak_days` and passes then — blocked for at most `max_peak_days`
evaluations although no expensive bar started the wait. -/
theorem exit_sets_wait_and_filter_blocks (cfg : W2.W2Config) (st : W2.W2State)
    (bar : W2.Bar) (jaw teeth lips : ℚ)
    (pcfg : W2.PFConfig) (hl2s : List ℚ) (std hl2 : ℚ) (pst : W2.PFState)
    (hu : pcfg.use_entry_price_filter = true)
    (hlen : pcfg.price_filter_lookback ≤ hl2s.length)
    (hstd : std ≠ 0)
    (hnotcheap : ¬ ((hl2 - popMean (lastN pcfg.price_filter_lookback hl2s)) / std <
      -pcfg.price_filter_k))
    (hwait : pst.wait_peak_check = true)
    (href : pst.peak_day_hl2 = none) :
    ((W2.check_exit cfg st bar jaw teeth lips).2 ≠ [] →
      (W2.check_exit cfg st bar jaw teeth lips).1.wait_peak_check = true ∧
      (W2.check_exit cfg st bar jaw teeth lips).1.peak_day_hl2 = st.peak_day_hl2) ∧
    W2.entry_price_filter pcfg hl2s std hl2 pst =
      (if pcfg.max_peak_days ≤ pst.peak_check_days + 1 then
        (true, { wait_peak_check := false, peak_day_hl2 := none, peak_check_days := 0 })
      else (false, { pst with peak_check_days := pst.peak_check_days + 1 })) := by
  constructor
  · intro hne
    cases he : st.entryPrice with
    | none => simp [W2.check_exit, he] at hne
    | some entry =>
      simp only [W2.check_exit, he] at hne ⊢
      split_ifs at hne ⊢ <;> simp_all [W2.sellAct]
  · simp only [W2.entry_price_filter]
    rw [if_neg (by simp [hu]), if_neg (by omega), if_neg hstd, if_neg hnotcheap,
      if_neg (by simp [hwait]), if_pos (by simp [hwait])]
    rw [href, hwait]
    simp

unseal Rat.add Rat.mul Rat.inv Rat.sub in
/-- C10 witness: the theorem at a concrete invested state (entry and high
100, filter idle before the exit) on a bar that trips the trailing stop,
and at a concrete waiting-without-reference filter state on a neutral bar. -/
theorem exit_sets_wait_witness :
    ((W2.check_exit W2.w2cfg investedIdleState (mkBar 90) 100 100 100).2 ≠ [] ∧
      (W2.check_exit W2.w2cfg investedIdleState (mkBar 90) 100 100 100).1.wait_peak_check =
        true ∧
      (W2.check_exit W2.w2cfg investedIdleState (mkBar 90) 100 100 100).1.peak_day_hl2 =
        investedIdleState.peak_day_hl2) ∧
    W2.entry_price_filter W2.w2cfg.pf flatWindow 1 1
        { wait_peak_check := true, peak_day_hl2 := none, peak_check_days := 0 } =
      (false, { wait_peak_check := true, peak_day_hl2 := none, peak_check_days := 1 }) := by
  have h := exit_sets_wait_and_filter_blocks W2.w2cfg investedIdleState (mkBar 90)
    100 100 100 W2.w2cfg.pf flatWindow 1 1
    { wait_peak_check := true, peak_day_hl2 := none, peak_check_days := 0 }
    (by decide) (by decide) (by decide) (by decide) (by decide) (by decide)
  refine ⟨⟨by decide, h.1 (by decide)⟩, ?_⟩
  rw [h.2]
  decide

end ClaimC10


section ClaimC3

unseal Rat.add Rat.mul Rat.inv Rat.sub in
set_option maxRecDepth 100000 in
/-- C3: in the `Williams Alligator with ATR Stop Loss` variant the cooldown
counter is decremented only in the not-invested branch of `OnData`, so a
position entered with `cooldown_days_remaining = 1` never becomes eligible
for exit evaluation: five consecutive crash bars (close 50, ATR 10, far
below the ATR stop level `100 - 0.2*10 = 98` that would fire) produce no
SELL, the counter is still 1 and the position is still open — contradicting
the claim that the counter is decremented once per bar regardless of
position state and that exit evaluation resumes after N bars. -/
theorem wa_exit_suppressed_while_invested :
    (WA.run WA.wacfg investedWaitState crashBars).2 = [] ∧
    (WA.run WA.wacfg investedWaitState crashBars).1.cooldown_days_remaining = 1 ∧
    (WA.run WA.wacfg investedWaitState crashBars).1.invested = true ∧
    investedWaitState.cooldown_days_remaining = 1 ∧
    (50 : ℚ) ≤ 100 - WA.wacfg.atr_multiplier * 10 := by
  decide

end ClaimC3

section ClaimC4

/-- Helper: `Williams2.update_indicators` touches only the rolling arrays
and the three SMMA lines, not the position or filter state. -/
theorem update_indicators_position (cfg : W2.W2Config) (st : W2.W2State) (bar : W2.Bar) :
    (W2.update_indicators cfg st bar).2.invested = st.invested ∧
    (W2.update_indicators cfg st bar).2.highestPrice = st.highestPrice ∧
    (W2.update_indicators cfg st bar).2.entryPrice = st.entryPrice ∧
    (W2.update_indicators cfg st bar).2.cooldown_days_remaining =
      st.cooldown_days_remaining := by
  simp only [W2.update_indicators]
  split <;> simp

/-- C4: in `Williams2` (and its Clone) the running high is maintained by
`check_exit` alone: on a bar where the exit evaluator runs and no exit rule
fires, `highestPrice` becomes `max h price`; the trailing-stop rule — first
in priority — is evaluated against that updated high; but on an invested
bar still in cooldown the whole exit evaluator is skipped and
`highestPrice` is left untouched, contradicting the claim for cooldown
bars. -/
theorem exit_high_update_eligible_bars_only (pf : List ℕ → List ℚ → ℚ)
    (stdOf : List ℚ → ℚ) (cfg : W2.W2Config) (st : W2.W2State) (bar : W2.Bar)
    (jaw teeth lips e h : ℚ)
    (hinv : st.invested = true)
    (he : st.entryPrice = some e)
    (hh : st.highestPrice = some h) :
    (st.cooldown_days_remaining ≠ 0 →
      (W2.step pf stdOf cfg st bar).1.highestPrice = some h) ∧
    ((W2.check_exit cfg st bar jaw teeth lips).2 = [] →
      (W2.check_exit cfg st bar jaw teeth lips).1.highestPrice = some (max h bar.close)) ∧
    (W2.W2Action.sellTrailing ∈ (W2.check_exit cfg st bar jaw teeth lips).2 ↔
      bar.close ≤ max h bar.close * (1 - cfg.trailingStopPct)) := by
  have hmax : (if h < bar.close then bar.close else h) = max h bar.close := by
    by_cases hc : h < bar.close
    · simp [hc, max_eq_right hc.le]
    · simp [hc, max_eq_left (not_lt.mp hc)]
  refine ⟨?_, ?_, ?_⟩
  · intro hcd
    have hp := update_indicators_position cfg st bar
    have hhigh : (W2.update_indicators cfg st bar).2.highestPrice = some h :=
      hp.2.1.trans hh
    simp only [W2.step]
    cases h0 : (W2.update_indicators cfg st bar).1 with
    | none =>
      simp only [h0]
      exact hhigh
    | some v =>
      obtain ⟨hl2, jaw1, teeth1, lips1⟩ := v
      have hniv : ¬ ¬ (W2.update_indicators cfg st bar).2.invested = true := by
        simp [hp.1, hinv]
      have hcdu : ¬ (W2.update_indicators cfg st bar).2.cooldown_days_remaining = 0 := by
        rw [hp.2.2.2]; exact hcd
      simp only [h0, if_neg hniv, if_neg hcdu]
      split <;> simp [hhigh]
  · intro hnone
    simp only [W2.check_exit, he, hh, hmax] at hnone ⊢
    split_ifs at hnone ⊢
    simp_all
  · simp only [W2.check_exit, he, hh, hmax]
    split_ifs with h1 h2 h3 h4 <;> simp_all

unseal Rat.add Rat.mul Rat.inv Rat.sub in
set_option maxRecDepth 100000 in
/-- C4 witness: the theorem at a concrete invested state one bar after a
BUY at 100 (cooldown still 2) on a bar closing at 110. -/
theorem exit_high_update_witness :
    (cooldownState.invested = true ∧ cooldownState.entryPrice = some 100 ∧
      cooldownState.highestPrice = some 100) ∧
    ((cooldownState.cooldown_days_remaining ≠ 0 →
      (W2.step pfZero stdZero W2.w2cfg cooldownState (mkBar 110)).1.highestPrice =
        some 100) ∧
    ((W2.check_exit W2.w2cfg cooldownState (mkBar 110) 100 100 100).2 = [] →
      (W2.check_exit W2.w2cfg cooldownState (mkBar 110) 100 100 100).1.highestPrice =
        some (max 100 (mkBar 110).close)) ∧
    (W2.W2Action.sellTrailing ∈ (W2.check_exit W2.w2cfg cooldownState (mkBar 110) 100 100 100).2 ↔
      (mkBar 110).close ≤ max 100 (mkBar 110).close * (1 - W2.w2cfg.trailingStopPct))) :=
  ⟨⟨rfl, rfl, rfl⟩,
    exit_high_update_eligible_bars_only pfZero stdZero W2.w2cfg cooldownState
      (mkBar 110) 100 100 100 100 100 rfl rfl rfl⟩

unseal Rat.add Rat.mul Rat.inv Rat.sub in
set_option maxRecDepth 100000 in
/-- C4 counterexample: an invested `Williams2` bar one day after a BUY at
100 (cooldown 2, so between BUY and the next SELL) closes at 110, yet after
the bar is processed the running high is still 100: during the post-BUY
cooldown `highestPrice` is not updated to the maximum, contrary to the
claim. -/
theorem cooldown_bar_skips_high_update :
    (W2.step pfZero stdZero W2.w2cfg cooldownState (mkBar 110)).1.highestPrice = some 100 ∧
    cooldownState.invested = true ∧
    cooldownState.entryPrice = some 100 ∧
    cooldownState.highestPrice = some 100 ∧
    cooldownState.cooldown_days_remaining ≠ 0 ∧
    (100 : ℚ) < 110 := by
  decide

end ClaimC4

section ClaimC8

/-- Helper: the exit evaluator of the `Williams Alligator with ATR Stop
Loss` variant never emits a startup BUY. -/
theorem wa_check_exit_count (cfg : WA.WAConfig) (st : WA.WAState) (bar : WA.WABar)
    (jaw teeth lips : ℚ) :
    ((WA.check_exit cfg st bar jaw teeth lips).2.count WA.WAAction.buyStartup) = 0 := by
  cases he : st.entryPrice with
  | none => simp [WA.check_exit, he]
  | some entry =>
    simp only [WA.check_exit, he]
    split_ifs <;> simp [List.count_cons, List.count_nil]

/-- Helper: that exit evaluator never touches the startup flag. -/
theorem wa_check_exit_flag (cfg : WA.WAConfig) (st : WA.WAState) (bar : WA.WABar)
    (jaw teeth lips : ℚ) :
    (WA.check_exit cfg st bar jaw teeth lips).1.startup_check = st.startup_check := by
  cases he : st.entryPrice with
  | none => simp [WA.check_exit, he]
  | some entry =>
    simp only [WA.check_exit, he]
    split_ifs <;> simp [WA.sellAct]

/-- Helper: one entry evaluation of that variant emits a startup BUY only
from a state whose startup flag is set, and clears the flag when it does. -/
theorem wa_check_entry_startup (cfg : WA.WAConfig) (st : WA.WAState) (bar : WA.WABar)
    (jaw teeth lips : ℚ) :
    ((WA.check_entry cfg st bar jaw teeth lips).2.count WA.WAAction.buyStartup)
      + ((WA.check_entry cfg st bar jaw teeth lips).1.startup_check).toNat
      ≤ (st.startup_check).toNat := by
  simp only [WA.check_entry]
  split_ifs with h1 h2 h3 h4 h5 <;>
    (simp_all [WA.buyAct, List.count_cons, List.count_nil]; try (split_ifs <;> simp_all))

/-- Helper: one processed bar of that variant emits a startup BUY only with
the flag set, clearing it. -/
theorem wa_step_startup (cfg : WA.WAConfig) (st : WA.WAState) (b : WA.WABar) :
    ((WA.step cfg st b).2.count WA.WAAction.buyStartup)
      + ((WA.step cfg st b).1.startup_check).toNat ≤ (st.startup_check).toNat := by
  simp only [WA.step]
  split_ifs with hg hinv hcd hcd2
  · simp [wa_check_exit_count, wa_check_exit_flag]
  · simp
  · simp
  · exact wa_check_entry_startup cfg _ b _ _ _
  · simp

/-- Helper: over a whole run, the number of startup BUY decisions is
bounded by the startup flag of the starting state. -/
theorem wa_run_startup (cfg : WA.WAConfig) (st : WA.WAState) (bars : List WA.WABar) :
    ((WA.run cfg st bars).2.count WA.WAAction.buyStartup) ≤ (st.startup_check).toNat := by
  induction bars generalizing st with
  | nil => simp [WA.run]
  | cons b bs ih =>
    simp only [WA.run, List.count_append]
    have h1 := wa_step_startup cfg st b
    have h2 := ih (WA.step cfg st b).1
    omega

/-- C8: in the `Williams Alligator with ATR Stop Loss` variant — the one
that keeps the `self.startup_check = False` disabling line — any run from
any state produces at most one BUY carrying the startup-condition reason.
(The claim fails for the `Williams2` variant, whose disabling line is
commented out: see the counterexample.) -/
theorem wa_startup_buy_at_most_once (cfg : WA.WAConfig) (st : WA.WAState)
    (bars : List WA.WABar) :
    ((WA.run cfg st bars).2.count WA.WAAction.buyStartup) ≤ 1 := by
  have h := wa_run_startup cfg st bars
  have h2 : (st.startup_check).toNat ≤ 1 := by cases st.startup_check <;> simp
  omega

unseal Rat.add Rat.mul Rat.inv Rat.sub in
set_option maxRecDepth 1000000 in
/-- C8 counterexample: a `Williams2` run in a steady up-trend buys on the
startup rule, exits three bars later on the trailing stop, and immediately
buys on the startup rule again: the disabling line is commented out in
`Williams2/main.py`, so one run emits two startup-reason BUY decisions with
no re-arming configuration involved. -/
theorem w2_two_startup_buys :
    (W2.run pfZero stdZero W2.w2cfg startupRunState startupRunBars).2 =
      [W2.W2Action.buyStartup, W2.W2Action.sellTrailing, W2.W2Action.buyStartup] := by
  decide

end ClaimC8

